import Mathlib

/-!
# Verification of the rinto-mvp client-side spatial query and aggregation core

Shallow embedding, in Lean 4, of the map-view subsystem of the rinto-mvp
repository: attribute filtering, ray-casting point-in-polygon testing,
draw-budget decimation, draw-area statistics, CSV field escaping, and the
offline submission outbox.  JavaScript numbers are modelled as rationals
(`ℚ`); `null`/`undefined`/absent values are modelled with `Option`;
asynchronous effects (network, durable storage) are modelled by explicit
state passing with outcome oracles.

Sources embedded:
* `frontend/src/utils/filters.ts` (`Utils.applyFilters`)
* `frontend/src/components/search/SearchDrawer.tsx`
  (`SearchDrawer.filteredOf`, `SearchDrawer.esc`, `SearchDrawer.toCSV`)
* `frontend/src/components/MapView.tsx` and its sibling variants
  (`MapView.applyFilters`, `MapView.pointInPolygon`, `MapView.decimate`,
  `MapView.computeAreaStats`)
* `frontend/src/lib/outbox.ts` (`Outbox.submitReport`, `Outbox.flushOutbox`)
-/

/-- A record point as in `frontend/src/types/map.ts` (`TreePoint`) and the
`Tree` type of `MapView.tsx`: position plus optional numeric attributes.
JS `number | null | undefined` is one `Option ℚ` (absence = `none`). -/
structure TreePoint where
  id : ℕ
  lat : ℚ
  lng : ℚ
  species : Option String := none
  dbh : Option ℚ := none
  height : Option ℚ := none
  volume : Option ℚ := none
  deriving DecidableEq, Repr

/-- `SearchFilters` of `frontend/src/types/map.ts`: optional species list and
optional numeric bounds. -/
structure SearchFilters where
  species : Option (List String) := none
  heightMin : Option ℚ := none
  heightMax : Option ℚ := none
  dbhMin : Option ℚ := none
  dbhMax : Option ℚ := none
  deriving DecidableEq, Repr

/-- `Filters` of `SearchDrawer.tsx` (used by the `MapView` variants):
`minHeight/maxHeight/minDbh/maxDbh` (number or null) and a species list. -/
structure Filters where
  minHeight : Option ℚ := none
  maxHeight : Option ℚ := none
  minDbh : Option ℚ := none
  maxDbh : Option ℚ := none
  species : Option (List String) := none
  deriving DecidableEq, Repr

/-- JS truthiness of an optional string: `undefined`/`null` and `""` are
falsy (`!p.species` in the sources). -/
def strFalsy : Option String → Bool
  | none => true
  | some s => s.isEmpty

namespace Utils

/-- `applyFilters` from `frontend/src/utils/filters.ts`.  Each numeric clause
rejects only when **both** the bound and the record field are numbers and the
comparison fails; a record whose field is absent skips the clause:

```ts
if (f.species && f.species.length && (!p.species || !f.species.includes(p.species))) return false;
if (typeof f.heightMin === 'number' && typeof p.height === 'number' && p.height < f.heightMin) return false;
if (typeof f.heightMax === 'number' && typeof p.height === 'number' && p.height > f.heightMax) return false;
if (typeof f.dbhMin === 'number' && typeof p.dbh === 'number' && p.dbh < f.dbhMin) return false;
if (typeof f.dbhMax === 'number' && typeof p.dbh === 'number' && p.dbh > f.dbhMax) return false;
return true;
``` -/
def applyFilters (items : List TreePoint) (f : SearchFilters) : List TreePoint :=
  items.filter fun p =>
    if (match f.species with
        | some l => !l.isEmpty && (strFalsy p.species || !l.contains (p.species.getD ""))
        | none => false) then false
    else if (match f.heightMin, p.height with
        | some m, some h => decide (h < m)
        | _, _ => false) then false
    else if (match f.heightMax, p.height with
        | some m, some h => decide (h > m)
        | _, _ => false) then false
    else if (match f.dbhMin, p.dbh with
        | some m, some d => decide (d < m)
        | _, _ => false) then false
    else if (match f.dbhMax, p.dbh with
        | some m, some d => decide (d > m)
        | _, _ => false) then false
    else true

end Utils

namespace MapView

/-- The `Tree` record type of `MapView.tsx` has exactly the `TreePoint` fields. -/
abbrev Tree := TreePoint

/-- `applyFilters` from the `MapView.tsx` variants (identical in all of
them).  Each present bound **requires** the record field to be a number and
in range (`!(typeof t.height === "number" && t.height >= mh)` rejects):

```ts
const mh = f.minHeight ?? null; ... const sp = (f.species ?? []).filter(Boolean);
return trees.filter((t) => {
  if (mh !== null && !(typeof t.height === "number" && t.height >= mh)) return false;
  if (xh !== null && !(typeof t.height === "number" && t.height <= xh)) return false;
  if (md !== null && !(typeof t.dbh === "number" && t.dbh >= md)) return false;
  if (xd !== null && !(typeof t.dbh === "number" && t.dbh <= xd)) return false;
  if (sp.length && (!t.species || !sp.includes(t.species))) return false;
  return true;
});
``` -/
def applyFilters (trees : List TreePoint) (f : Filters) : List TreePoint :=
  let sp := (f.species.getD []).filter fun s => !s.isEmpty
  trees.filter fun t =>
    if (match f.minHeight with
        | some mh => !(match t.height with | some h => decide (h ≥ mh) | none => false)
        | none => false) then false
    else if (match f.maxHeight with
        | some xh => !(match t.height with | some h => decide (h ≤ xh) | none => false)
        | none => false) then false
    else if (match f.minDbh with
        | some md => !(match t.dbh with | some d => decide (d ≥ md) | none => false)
        | none => false) then false
    else if (match f.maxDbh with
        | some xd => !(match t.dbh with | some d => decide (d ≤ xd) | none => false)
        | none => false) then false
    else if (!sp.isEmpty && (strFalsy t.species || !sp.contains (t.species.getD ""))) then false
    else true

/-- The denominator used by the ray-casting test for the edge from latitude
`yi` to latitude `yj`: `const denom = yj - yi || 1e-12;` — JS `||` yields the
right operand exactly when `yj - yi` is `0`. -/
def edgeDenom (yi yj : ℚ) : ℚ :=
  if yj - yi = 0 then 1 / 1000000000000 else yj - yi

/-- One edge-crossing test of the ray-casting loop:
`(yi > y) !== (yj > y) && x < ((xj - xi) * (y - yi)) / denom + xi`. -/
def edgeCross (x y xi yi xj yj : ℚ) : Bool :=
  (decide (yi > y) != decide (yj > y)) &&
    decide (x < (xj - xi) * (y - yi) / edgeDenom yi yj + xi)

/-- `pointInPolygon` from the `MapView.tsx` variants: even-odd ray casting
over the ring `vs` of `[lat, lng]` vertices, visiting edges
`(vs[i], vs[j])` with `j = i - 1` (wrap-around: `j = n - 1` for `i = 0`),
toggling the inside flag on each crossing. -/
def pointInPolygon (point : ℚ × ℚ) (vs : List (ℚ × ℚ)) : Bool :=
  let x := point.2
  let y := point.1
  (List.range vs.length).foldl
    (fun inside i =>
      let j := (i + vs.length - 1) % vs.length
      let vi := vs.getD i (0, 0)
      let vj := vs.getD j (0, 0)
      if edgeCross x y vi.2 vi.1 vj.2 vj.1 then !inside else inside)
    false

/-- Draw budget `MAX_DRAW = 3000` of the `reload` pipeline. -/
def MAX_DRAW : ℕ := 3000

/-- Natural-number ceiling division, the exact value of JS
`Math.ceil(n / m)` for the list sizes at hand. -/
def jsCeilDiv (n m : ℕ) : ℕ := (n + m - 1) / m

/-- `const step = filtered.length > MAX_DRAW ? Math.ceil(filtered.length / MAX_DRAW) : 1;` -/
def decimationStep (n : ℕ) : ℕ :=
  if n > MAX_DRAW then jsCeilDiv n MAX_DRAW else 1

/-- `const draw = filtered.filter((_, i) => i % step === 0);` — keep every
`step`-th element, in original order. -/
def decimate (l : List TreePoint) : List TreePoint :=
  (l.enum.filter fun vi => vi.1 % decimationStep l.length = 0).map Prod.snd

/-- The viewport bounding-box filter of `reload`:
`t.lng >= minLng && t.lng <= maxLng && t.lat >= minLat && t.lat <= maxLat`. -/
def bboxFilter (minLng minLat maxLng maxLat : ℚ) (l : List TreePoint) : List TreePoint :=
  l.filter fun t =>
    decide (t.lng ≥ minLng) && decide (t.lng ≤ maxLng) &&
    decide (t.lat ≥ minLat) && decide (t.lat ≤ maxLat)

/-- The rendered feature set produced by `reload` in
`frontend/src/components/MapView.tsx`: viewport filter, then decimation;
`onFeaturesChange(fc.features)` hands exactly these (one feature per kept
record) to the parent, whose toolbar shows `count={features.length}`. -/
def reloadFeatures (minLng minLat maxLng maxLat : ℚ) (fetched : List TreePoint) : List TreePoint :=
  decimate (bboxFilter minLng minLat maxLng maxLat fetched)

/-- The count shown by the `MapView.tsx` toolbar (`count={features.length}`). -/
def displayedCount (minLng minLat maxLng maxLat : ℚ) (fetched : List TreePoint) : ℕ :=
  (reloadFeatures minLng minLat maxLng maxLat fetched).length

/-- The pre-decimation visible subset of `reload` (`filtered`). -/
def visibleSubset (minLng minLat maxLng maxLat : ℚ) (fetched : List TreePoint) : List TreePoint :=
  bboxFilter minLng minLat maxLng maxLat fetched

/-- A rendered GeoJSON feature as built by `reload`: geometry coordinates
`[t.lng, t.lat]` and the properties consumed downstream
(`dbh_cm: t.dbh`, `height_m: t.height`, `volume_m3: t.volume` — each a JS
`number | null`, hence `Option ℚ`). -/
structure Feature where
  tree_id : ℕ
  lng : ℚ
  lat : ℚ
  species : Option String := none
  dbh_cm : Option ℚ := none
  height_m : Option ℚ := none
  volume_m3 : Option ℚ := none
  deriving DecidableEq, Repr

/-- `draw.map((t) => ({ geometry: ..., properties: ... }))` of `reload`. -/
def toFeature (t : TreePoint) : Feature :=
  { tree_id := t.id, lng := t.lng, lat := t.lat, species := t.species,
    dbh_cm := t.dbh, height_m := t.height, volume_m3 := t.volume }

/-- JS `Number()` on a `number | null` property value, with `none` on the
left standing for `null` and `none` on the right standing for `NaN`:
`Number(null) = 0` (which **is** finite), `Number(x) = x` for a number. -/
def jsNumber : Option ℚ → Option ℚ
  | some q => some q
  | none => some 0

/-- `const num = (xs) => xs.map(Number).filter((n) => Number.isFinite(n));`
from the draw-aggregation in `onCreated`. -/
def num (xs : List (Option ℚ)) : List ℚ :=
  (xs.map jsNumber).filterMap id

/-- `Number.EPSILON` = 2⁻⁵². -/
def EPSILON : ℚ := 1 / 4503599627370496

/-- JS `Math.round`: round half towards +∞, i.e. `⌊q + 1/2⌋`. -/
def jsRound (q : ℚ) : ℤ := ⌊q + 1 / 2⌋

/-- `const avg = (xs) => xs.length ? Math.round(((sum / len) + Number.EPSILON) * 10) / 10 : null;` -/
def avg (xs : List ℚ) : Option ℚ :=
  if xs.length ≠ 0 then
    some ((jsRound ((xs.sum / xs.length + EPSILON) * 10) : ℚ) / 10)
  else none

/-- A drawn shape: leaflet-draw rectangle (whose `getBounds().contains` is a
closed-interval test) or polygon ring of `[lat, lng]` vertices. -/
inductive DrawnShape
  | rect (south west north east : ℚ)
  | poly (ring : List (ℚ × ℚ))

/-- The `inside` test of `onCreated`: rectangle via bounds containment,
polygon via `pointInPolygon`. -/
def insideShape (s : DrawnShape) (lat lng : ℚ) : Bool :=
  match s with
  | .rect south west north east =>
      decide (south ≤ lat) && decide (lat ≤ north) &&
      decide (west ≤ lng) && decide (lng ≤ east)
  | .poly ring => pointInPolygon (lat, lng) ring

/-- The area statistics reported by `onCreated`
(`{ count, avgDbh, avgHeight }`). -/
structure AreaStats where
  count : ℕ
  avgDbh : Option ℚ
  avgHeight : Option ℚ
  deriving DecidableEq, Repr

/-- The draw-aggregation of `onCreated`: pick the rendered features inside
the shape, then average their `dbh_cm` / `height_m` properties through
`avg ∘ num`.  (The JS guard `Number.isFinite(lat) && Number.isFinite(lng)`
is identically true in the rational model.) -/
def computeAreaStats (s : DrawnShape) (features : List Feature) : AreaStats :=
  let picked := features.filter fun f => insideShape s f.lat f.lng
  { count := picked.length,
    avgDbh := avg (num (picked.map (·.dbh_cm))),
    avgHeight := avg (num (picked.map (·.height_m))) }

end MapView

namespace SearchDrawer

/-- The `filtered` memo of `SearchDrawer.tsx`, after the `"" ↦ null` /
`Number()` input conversion (`mh`, `xh`, `md`, `xd`) has produced optional
rationals.  Bounds require the property to be a number and in range;
species membership requires the property to be one of the checked names:

```ts
if (mh !== null && !(typeof p.height_m === "number" && p.height_m >= mh)) return false;
...
if (species.length && !species.includes(p.species)) return false;
``` -/
def filteredOf (features : List MapView.Feature) (mh xh md xd : Option ℚ)
    (species : List String) : List MapView.Feature :=
  features.filter fun f =>
    if (match mh with
        | some m => !(match f.height_m with | some h => decide (h ≥ m) | none => false)
        | none => false) then false
    else if (match xh with
        | some m => !(match f.height_m with | some h => decide (h ≤ m) | none => false)
        | none => false) then false
    else if (match md with
        | some m => !(match f.dbh_cm with | some d => decide (d ≥ m) | none => false)
        | none => false) then false
    else if (match xd with
        | some m => !(match f.dbh_cm with | some d => decide (d ≤ m) | none => false)
        | none => false) then false
    else if (!species.isEmpty &&
        !(match f.species with | some sp => species.contains sp | none => false)) then false
    else true

/-- A CSV cell value handed to `toCSV`: a string (numbers enter as their
decimal rendering), `null`, or `undefined`.  Strings are lists of
characters so that the escaping can be reasoned about per character. -/
inductive CellVal
  | vstr (s : List Char)
  | vnull
  | vundefined
  deriving DecidableEq, Repr

/-- JS `String(val)` for the cell values that reach the escaper's string
branch, and the empty rendering chosen for `null`/`undefined`. -/
def jsValString : CellVal → List Char
  | .vstr s => s
  | .vnull => []
  | .vundefined => []

/-- The character class of the wrap test `/[",\n]/`. -/
def specialChar (c : Char) : Bool :=
  c = ',' || c = '"' || c = '\n'

/-- `str.replace(/"/g, '""')`: double every double-quote. -/
def dq (s : List Char) : List Char :=
  s.flatMap fun c => if c = '"' then ['"', '"'] else [c]

/-- The field escaper `esc` of `SearchDrawer.tsx`'s `toCSV` (the same logic
as `escape` in `utils`'s `toCSV`):

```ts
const esc = (s) => {
  if (s === null || s === undefined) return "";
  const str = String(s);
  return /[",\n]/.test(str) ? `"` + str.replace(/"/g, `""`) + `"` : str;
};
``` -/
def esc : CellVal → List Char
  | .vnull => []
  | .vundefined => []
  | .vstr s => if s.any specialChar then '"' :: (dq s ++ ['"']) else s

/-- `r[h]` on a record modelled as an association list: a missing key reads
as `undefined`. -/
def getCell (r : List (String × CellVal)) (h : String) : CellVal :=
  match r.find? (fun kv => kv.1 = h) with
  | some kv => kv.2
  | none => .vundefined

/-- `toCSV(rows, headerOrder)` from `SearchDrawer.tsx`: empty string on an
empty collection, otherwise a header row followed by one escaped row per
record, joined with CRLF. -/
def toCSV (rows : List (List (String × CellVal))) (headers : List String) : List Char :=
  if rows.isEmpty then []
  else
    List.intercalate ['\r', '\n']
      ((List.intercalate [','] (headers.map String.toList)) ::
        rows.map fun r => List.intercalate [','] (headers.map fun h => esc (getCell r h)))

/-- Collapse doubled double-quotes (the inverse of `dq`): reference reader
for the quoted-field content of an RFC-4180 parser. -/
def undouble : List Char → List Char
  | [] => []
  | [c] => [c]
  | c1 :: c2 :: rest =>
      if c1 = '"' ∧ c2 = '"' then '"' :: undouble rest
      else c1 :: undouble (c2 :: rest)

/-- Reference RFC-4180 field reader: a field beginning with a double-quote
is unwrapped and undoubled, any other field reads as itself. -/
def readField (f : List Char) : List Char :=
  match f with
  | c :: rest => if c = '"' then undouble rest.dropLast else c :: rest
  | [] => []

end SearchDrawer

namespace Outbox

/-- An opaque report payload (`data` in `outbox.ts`). -/
abbrev Payload := ℕ

/-- A thrown JS error in the submission path: the `UNAUTHENTICATED` error of
`sendOnce`, an HTTP error object carrying its status, or a network-level
fetch failure (whose extracted status is `null`). -/
inductive JsErr
  | unauth
  | http (status : ℕ)
  | network
  deriving DecidableEq, Repr

/-- `e?.status ?? parseStatusFromMessage(e?.message)`: an HTTP error carries
its status; a network failure yields `null` (`none`). -/
def statusOf : JsErr → Option ℕ
  | .http s => some s
  | _ => none

/-- `status === 404 || status === 405 || status === 501 || status === 0 || status == null` -/
def apiUnavailable (status : Option ℕ) : Bool :=
  status = some 404 || status = some 405 || status = some 501 ||
    status = some 0 || status = none

/-- `"sent" | "queued"`, the `SubmitResult` of `outbox.ts`. -/
inductive SubmitResult
  | sent
  | queued
  deriving DecidableEq, Repr

/-- The external world as deterministic outcome oracles: the authentication
state (`getAuth().currentUser`), connectivity (`navigator.onLine`), the
HEAD probe of `isApiAvailable` (`none` = the fetch threw), and the result
of the n-th `sendViaApi` POST resp. the n-th `sendViaFirestore` `addDoc`. -/
structure Env where
  currentUser : Option Unit
  onLine : Bool
  headOk : Option Bool
  post : ℕ → Except JsErr Unit
  fsAdd : ℕ → Except JsErr Unit

/-- The mutable/durable state threaded through the submission path: the
cached API availability (`apiStateMemo` / `localStorage`), how many POST and
`addDoc` calls have been consumed, the durable outbox contents
(key–payload pairs in key order, as `idb-keyval` enumerates them), and the
next fresh key (`Date.now() + randomUUID` made abstract). -/
structure St where
  apiState : Option Bool
  postCnt : ℕ
  fsCnt : ℕ
  outbox : List (ℕ × Payload)
  nextKey : ℕ
  deriving DecidableEq, Repr

/-- `isApiAvailable`: return the cached up/down state if present, otherwise
probe with a HEAD request and cache the result (a thrown fetch caches
`down`). -/
def isApiAvailable (env : Env) (st : St) : Bool × St :=
  match st.apiState with
  | some b => (b, st)
  | none =>
    match env.headOk with
    | some ok => (ok, { st with apiState := some ok })
    | none => (false, { st with apiState := some false })

/-- `sendViaApi`: one POST, consuming the next oracle outcome. -/
def sendViaApi (env : Env) (st : St) : Except JsErr Unit × St :=
  (env.post st.postCnt, { st with postCnt := st.postCnt + 1 })

/-- `sendViaFirestore`: one `addDoc`, consuming the next oracle outcome. -/
def sendViaFirestore (env : Env) (st : St) : Except JsErr Unit × St :=
  (env.fsAdd st.fsCnt, { st with fsCnt := st.fsCnt + 1 })

/-- `sendOnce` from `frontend/src/lib/outbox.ts`:

```ts
const user = getAuth().currentUser;
if (!user) throw new Error("UNAUTHENTICATED");
if (!(await isApiAvailable())) { await sendViaFirestore(data, user); return; }
try { await sendViaApi(data, await user.getIdToken()); setCachedApiState("up"); return; }
catch (e) {
  const status = e?.status ?? parseStatusFromMessage(e?.message);
  const apiUnavailable = status === 404 || status === 405 || status === 501 || status === 0 || status == null;
  if (apiUnavailable) { setCachedApiState("down"); await sendViaFirestore(data, user); return; }
  throw e;
}
``` -/
def sendOnce (env : Env) (st : St) (data : Payload) : Except JsErr Unit × St :=
  match env.currentUser with
  | none => (.error .unauth, st)
  | some _ =>
    let ia := isApiAvailable env st
    if !ia.1 then sendViaFirestore env ia.2
    else
      let ap := sendViaApi env ia.2
      match ap.1 with
      | .ok _ => (.ok (), { ap.2 with apiState := some true })
      | .error e =>
        if apiUnavailable (statusOf e) then
          sendViaFirestore env { ap.2 with apiState := some false }
        else (.error e, ap.2)

/-- The retry loop of `retryableSend` with `n` attempts left: try
`sendOnce`; rethrow only from the final attempt (`if (i === tries - 1)
throw e`), otherwise back off (the timer has no observable effect in the
model) and retry. -/
def retryAux (env : Env) (data : Payload) : ℕ → St → Except JsErr Unit × St
  | 0, st => (.ok (), st)
  | 1, st => sendOnce env st data
  | n + 2, st =>
    match sendOnce env st data with
    | (.ok _, st1) => (.ok (), st1)
    | (.error _, st1) => retryAux env data (n + 1) st1

/-- `retryableSend(data, tries = 5)`: up to five `sendOnce` attempts with
exponential backoff, surfacing the final attempt's error. -/
def retryableSend (env : Env) (st : St) (data : Payload) : Except JsErr Unit × St :=
  retryAux env data 5 st

/-- `enqueue`: durably store the payload under a fresh
`r:timestamp:uuid`-style key (fresh keys are strictly increasing, so
key-order enumeration is FIFO). -/
def enqueue (st : St) (data : Payload) : St :=
  { st with outbox := st.outbox ++ [(st.nextKey, data)], nextKey := st.nextKey + 1 }

/-- `submitReport`: when online, attempt `retryableSend` and fall back to
the queue on **any** thrown error; when offline, queue immediately.

```ts
if (navigator.onLine) {
  try { await retryableSend(data); return "sent"; }
  catch { await enqueue(data); return "queued"; }
} else { await enqueue(data); return "queued"; }
``` -/
def submitReport (env : Env) (st : St) (data : Payload) : SubmitResult × St :=
  if env.onLine then
    match retryableSend env st data with
    | (.ok _, st1) => (.sent, st1)
    | (.error _, st1) => (.queued, enqueue st1 data)
  else (.queued, enqueue st data)

/-- `del(k, store)`: remove the entry stored under key `k`. -/
def del (st : St) (k : ℕ) : St :=
  { st with outbox := st.outbox.filter fun e => e.1 ≠ k }

/-- The loop body of `flushOutbox` over the snapshot of stored entries:

```ts
for (const k of await keys(store)) if (k.startsWith(KEY_PREFIX)) {
  const data = await get(k, store);
  try { await retryableSend(data); await del(k, store); sent++; } catch { /* retry next pass */ }
}
```

Every key the code itself stores carries the prefix, so the prefix test is
identically true for the enumerated snapshot. -/
def flushAux (env : Env) : List (ℕ × Payload) → St → ℕ × St
  | [], st => (0, st)
  | (k, data) :: rest, st =>
    match retryableSend env st data with
    | (.ok _, st1) =>
      let res := flushAux env rest (del st1 k)
      (res.1 + 1, res.2)
    | (.error _, st1) => flushAux env rest st1

/-- `flushOutbox`: iterate over the currently stored entries, deleting each
one right after its send succeeds, keeping it for the next pass otherwise;
returns the number of successfully sent entries. -/
def flushOutbox (env : Env) (st : St) : ℕ × St :=
  flushAux env st.outbox st

end Outbox

/-! ### Concrete instances used by the witnesses and counterexamples -/

/-- The `part_006` variant of `reload` displays `表示本数: {count}` with
`setCount(filtered.length)` — the **pre-decimation** visible size after the
viewport and attribute filters. -/
def part006DisplayCount (minLng minLat maxLng maxLat : ℚ) (all : List TreePoint)
    (f : Filters) : ℕ :=
  (MapView.applyFilters (MapView.bboxFilter minLng minLat maxLng maxLat all) f).length

/-- A fetched dataset of 3001 records, all at the origin (inside any
viewport containing it). -/
def bigFetch : List TreePoint :=
  (List.range 3001).map fun i => { id := i, lat := 0, lng := 0 }

/-- An empty initial submission state. -/
def st0 : Outbox.St :=
  { apiState := none, postCnt := 0, fsCnt := 0, outbox := [], nextKey := 0 }

/-- An environment that is online with a perfectly healthy server but no
authenticated user. -/
def envUnauthOnline : Outbox.Env :=
  { currentUser := none, onLine := true, headOk := some true,
    post := fun _ => .ok (), fsAdd := fun _ => .ok () }

/-- An environment with an authenticated user, a cached-up reachable API
and every POST succeeding. -/
def envAllOk : Outbox.Env :=
  { currentUser := some (), onLine := true, headOk := some true,
    post := fun _ => .ok (), fsAdd := fun _ => .ok () }

/-- Three rendered features at distinct in-shape positions whose heights
are `10`, `null` and `20` (`dbh_cm` absent throughout). -/
def featH10 : MapView.Feature := { tree_id := 1, lng := 0, lat := 0, height_m := some 10 }

/-- Second feature: `height_m` is `null`. -/
def featHNull : MapView.Feature := { tree_id := 2, lng := 1, lat := 1, height_m := none }

/-- Third feature: `height_m` is `20`. -/
def featH20 : MapView.Feature := { tree_id := 3, lng := 2, lat := 2, height_m := some 20 }

/-! ## Theorems -/

/-! ### Decimation (C5, C3) -/

theorem decimationStep_pos (n : ℕ) : 0 < MapView.decimationStep n := by
  simp only [MapView.decimationStep, MapView.jsCeilDiv, MapView.MAX_DRAW]
  split <;> omega

theorem countP_mod_range (s n : ℕ) (hs : 0 < s) :
    ((List.range n).countP fun i => decide (i % s = 0)) = (n + s - 1) / s := by
  induction n with
  | zero =>
    simp only [List.range_zero, List.countP_nil]
    symm
    exact Nat.div_eq_of_lt (by omega)
  | succ n ih =>
    rw [List.range_succ, List.countP_append, ih]
    simp only [List.countP_cons, List.countP_nil]
    have hgoal : n + 1 + s - 1 = n + s := by omega
    rw [hgoal, Nat.add_div_right n hs]
    rcases Nat.eq_zero_or_pos n with hn | hn
    · subst hn
      simp [Nat.div_eq_of_lt (show s - 1 < s by omega)]
    · have h1 : n + s - 1 = (n - 1) + s := by omega
      rw [h1, Nat.add_div_right _ hs]
      have h3 : n / s = (n - 1) / s + if s ∣ n then 1 else 0 := by
        have h := Nat.succ_div (n - 1) s
        rwa [Nat.sub_add_cancel hn] at h
      rw [h3]
      by_cases hd : s ∣ n
      · have hm : n % s = 0 := Nat.mod_eq_zero_of_dvd hd
        simp [hd, hm]
      · have hm : ¬ n % s = 0 := fun h => hd (Nat.dvd_iff_mod_eq_zero.mpr h)
        simp [hd, hm]

theorem decimate_length (l : List TreePoint) :
    (MapView.decimate l).length =
      (l.length + MapView.decimationStep l.length - 1) / MapView.decimationStep l.length := by
  unfold MapView.decimate
  rw [List.length_map, ← List.countP_eq_length_filter]
  have h1 : (l.enum.countP fun vi => decide (vi.1 % MapView.decimationStep l.length = 0))
      = ((l.enum.map Prod.fst).countP fun i => decide (i % MapView.decimationStep l.length = 0)) := by
    rw [List.countP_map]
    rfl
  rw [h1, List.enum_map_fst, countP_mod_range _ _ (decimationStep_pos _)]

theorem decimate_eq_self (l : List TreePoint) (h : l.length ≤ MapView.MAX_DRAW) :
    MapView.decimate l = l := by
  unfold MapView.decimate
  have hs : MapView.decimationStep l.length = 1 := by
    unfold MapView.decimationStep
    exact if_neg (by omega)
  rw [hs]
  have hf : (l.enum.filter fun vi => decide (vi.1 % 1 = 0)) = l.enum := by
    apply List.filter_eq_self.mpr
    intro a _
    simp [Nat.mod_one]
  rw [hf, List.enum_map_snd]

theorem decimate_sublist (l : List TreePoint) : List.Sublist (MapView.decimate l) l := by
  have h := List.Sublist.map Prod.snd
    (List.filter_sublist (p := fun vi => decide (vi.1 % MapView.decimationStep l.length = 0)) l.enum)
  rwa [List.enum_map_snd] at h

theorem decimate_le_budget (l : List TreePoint) (h : MapView.MAX_DRAW < l.length) :
    (MapView.decimate l).length ≤ MapView.MAX_DRAW := by
  rw [decimate_length]
  have hs : 0 < MapView.decimationStep l.length := decimationStep_pos _
  have hstep : MapView.decimationStep l.length = (l.length + 3000 - 1) / 3000 := by
    unfold MapView.decimationStep MapView.jsCeilDiv
    rw [if_pos (by simpa [MapView.MAX_DRAW] using h)]
    rfl
  have hB : l.length ≤ 3000 * MapView.decimationStep l.length := by
    rw [hstep]
    omega
  show _ ≤ (3000 : ℕ)
  rw [Nat.div_le_iff_le_mul_add_pred hs]
  omega

theorem mem_decimate (l : List TreePoint) (a : TreePoint) :
    a ∈ MapView.decimate l ↔
      ∃ i, i % MapView.decimationStep l.length = 0 ∧ l[i]? = some a := by
  unfold MapView.decimate
  constructor
  · intro h
    obtain ⟨vi, hvi, hsnd⟩ := List.mem_map.mp h
    obtain ⟨hmem, hmod⟩ := List.mem_filter.mp hvi
    refine ⟨vi.1, by simpa using hmod, ?_⟩
    have := List.mem_enum_iff_getElem?.mp hmem
    rw [this, hsnd]
  · rintro ⟨i, hmod, hget⟩
    apply List.mem_map.mpr
    refine ⟨(i, a), List.mem_filter.mpr ⟨List.mem_enum_iff_getElem?.mpr hget, by simpa using hmod⟩, rfl⟩

/-- C5 — Decimation bound and determinism: the step is
`ceil(V / 3000)` when `V > 3000` (else every record is kept verbatim), the
kept records are exactly those at indices divisible by the step, in
original order (a sublist), the output size is at most the budget when
`V > 3000` and exactly `V` otherwise, and the sampling is a pure function
of its input (no randomness). -/
theorem decimation_bound_and_determinism (l : List TreePoint) :
    (MapView.MAX_DRAW < l.length →
      MapView.decimationStep l.length = MapView.jsCeilDiv l.length MapView.MAX_DRAW ∧
      (MapView.decimate l).length ≤ MapView.MAX_DRAW) ∧
    (l.length ≤ MapView.MAX_DRAW → MapView.decimate l = l) ∧
    List.Sublist (MapView.decimate l) l ∧
    (∀ a, a ∈ MapView.decimate l ↔
      ∃ i, i % MapView.decimationStep l.length = 0 ∧ l[i]? = some a) ∧
    (∀ l2, l = l2 → MapView.decimate l = MapView.decimate l2) := by
  refine ⟨fun h => ⟨?_, decimate_le_budget l h⟩, decimate_eq_self l, decimate_sublist l,
    mem_decimate l, fun l2 h => by rw [h]⟩
  unfold MapView.decimationStep
  exact if_pos h

/-- C5 witness: the theorem applied to a concrete two-record list, whose
size is within the budget, so decimation keeps it verbatim. -/
theorem decimation_bound_witness :
    (([{ id := 0, lat := 1, lng := 2 }, { id := 1, lat := 3, lng := 4 }] :
        List TreePoint).length ≤ MapView.MAX_DRAW) ∧
      MapView.decimate [{ id := 0, lat := 1, lng := 2 }, { id := 1, lat := 3, lng := 4 }] =
        [{ id := 0, lat := 1, lng := 2 }, { id := 1, lat := 3, lng := 4 }] :=
  ⟨by decide,
    (decimation_bound_and_determinism
      [{ id := 0, lat := 1, lng := 2 }, { id := 1, lat := 3, lng := 4 }]).2.1 (by decide)⟩

theorem bigFetch_length : bigFetch.length = 3001 := by
  simp [bigFetch]

theorem visibleSubset_bigFetch :
    MapView.visibleSubset (-1) (-1) 1 1 bigFetch = bigFetch := by
  unfold MapView.visibleSubset MapView.bboxFilter
  apply List.filter_eq_self.mpr
  intro t ht
  obtain ⟨i, _, rfl⟩ := List.mem_map.mp ht
  norm_num

/-- C3 counterexample: for a dataset of 3001 records all inside the
viewport, `MapView.tsx` hands the decimated feature list to the toolbar, so
the "N records" display shows 1501 while the pre-decimation visible subset
has 3001 records. -/
theorem displayedCount_counterexample :
    MapView.displayedCount (-1) (-1) 1 1 bigFetch = 1501 ∧
    (MapView.visibleSubset (-1) (-1) 1 1 bigFetch).length = 3001 ∧
    (1501 : ℕ) ≠ 3001 := by
  refine ⟨?_, ?_, by decide⟩
  · show (MapView.decimate (MapView.bboxFilter (-1) (-1) 1 1 bigFetch)).length = 1501
    have hb : MapView.bboxFilter (-1) (-1) 1 1 bigFetch = bigFetch := visibleSubset_bigFetch
    rw [hb, decimate_length, bigFetch_length]
    decide
  · rw [visibleSubset_bigFetch, bigFetch_length]

/-- C3 amended — In `MapView.tsx` the toolbar's "N records" count is the
size of the **post-decimation** rendered subset: it equals the
pre-decimation visible count exactly while that count is within the 3000
draw budget, and is strictly smaller (capped by the budget) above it.  The
`part_006` variant's `表示本数` count is the pre-decimation filtered size,
as the claim states. -/
theorem displayedCount_amended (minLng minLat maxLng maxLat : ℚ) (fetched : List TreePoint)
    (all : List TreePoint) (f : Filters) :
    MapView.displayedCount minLng minLat maxLng maxLat fetched =
      (MapView.decimate (MapView.visibleSubset minLng minLat maxLng maxLat fetched)).length ∧
    ((MapView.visibleSubset minLng minLat maxLng maxLat fetched).length ≤ MapView.MAX_DRAW →
      MapView.displayedCount minLng minLat maxLng maxLat fetched =
        (MapView.visibleSubset minLng minLat maxLng maxLat fetched).length) ∧
    (MapView.MAX_DRAW < (MapView.visibleSubset minLng minLat maxLng maxLat fetched).length →
      MapView.displayedCount minLng minLat maxLng maxLat fetched < 
        (MapView.visibleSubset minLng minLat maxLng maxLat fetched).length) ∧
    part006DisplayCount minLng minLat maxLng maxLat all f =
      (MapView.applyFilters (MapView.bboxFilter minLng minLat maxLng maxLat all) f).length := by
  refine ⟨rfl, fun h => ?_, fun h => ?_, rfl⟩
  · show (MapView.decimate (MapView.visibleSubset minLng minLat maxLng maxLat fetched)).length = _
    rw [decimate_eq_self _ h]
  · calc MapView.displayedCount minLng minLat maxLng maxLat fetched
        ≤ MapView.MAX_DRAW := decimate_le_budget _ h
      _ < _ := h

/-- C3 witness: the amended theorem applied to the 3001-record dataset. -/
theorem displayedCount_amended_witness :
    MapView.MAX_DRAW < (MapView.visibleSubset (-1) (-1) 1 1 bigFetch).length ∧
      MapView.displayedCount (-1) (-1) 1 1 bigFetch <
        (MapView.visibleSubset (-1) (-1) 1 1 bigFetch).length :=
  have h : MapView.MAX_DRAW < (MapView.visibleSubset (-1) (-1) 1 1 bigFetch).length := by
    rw [visibleSubset_bigFetch, bigFetch_length]
    decide
  ⟨h, ((displayedCount_amended (-1) (-1) 1 1 bigFetch [] {}).2.2.1) h⟩

/-! ### Attribute filtering (C4, C9) -/

theorem ifChainPeel {a X : Bool} (h : (if a = true then false else X) = true) :
    a = false ∧ X = true := by
  cases a <;> simp_all

theorem chainFalse {a b c d e : Bool}
    (h : a = true ∨ b = true ∨ c = true ∨ d = true ∨ e = true) :
    (if a = true then false
     else if b = true then false
     else if c = true then false
     else if d = true then false
     else if e = true then false
     else true) = false := by
  cases a <;> cases b <;> cases c <;> cases d <;> cases e <;> simp_all

theorem mapView_mem_bounds (trees : List TreePoint) (f : Filters) (t : TreePoint)
    (ht : t ∈ MapView.applyFilters trees f) :
    (∀ m, f.minHeight = some m → ∃ h, t.height = some h ∧ m ≤ h) ∧
    (∀ m, f.maxHeight = some m → ∃ h, t.height = some h ∧ h ≤ m) ∧
    (∀ m, f.minDbh = some m → ∃ d, t.dbh = some d ∧ m ≤ d) ∧
    (∀ m, f.maxDbh = some m → ∃ d, t.dbh = some d ∧ d ≤ m) := by
  simp only [MapView.applyFilters] at ht
  have hp := (List.mem_filter.mp ht).2
  obtain ⟨h1, hp⟩ := ifChainPeel hp
  obtain ⟨h2, hp⟩ := ifChainPeel hp
  obtain ⟨h3, hp⟩ := ifChainPeel hp
  obtain ⟨h4, hp⟩ := ifChainPeel hp
  refine ⟨?_, ?_, ?_, ?_⟩
  · intro m hm
    rw [hm] at h1
    cases hh : t.height with
    | none => rw [hh] at h1; simp at h1
    | some h => rw [hh] at h1; simp at h1; exact ⟨h, rfl, h1⟩
  · intro m hm
    rw [hm] at h2
    cases hh : t.height with
    | none => rw [hh] at h2; simp at h2
    | some h => rw [hh] at h2; simp at h2; exact ⟨h, rfl, h2⟩
  · intro m hm
    rw [hm] at h3
    cases hh : t.dbh with
    | none => rw [hh] at h3; simp at h3
    | some d => rw [hh] at h3; simp at h3; exact ⟨d, rfl, h3⟩
  · intro m hm
    rw [hm] at h4
    cases hh : t.dbh with
    | none => rw [hh] at h4; simp at h4
    | some d => rw [hh] at h4; simp at h4; exact ⟨d, rfl, h4⟩

theorem searchDrawer_mem_bounds (features : List MapView.Feature)
    (mh xh md xd : Option ℚ) (sp : List String) (g : MapView.Feature)
    (hg : g ∈ SearchDrawer.filteredOf features mh xh md xd sp) :
    (∀ m, mh = some m → ∃ h, g.height_m = some h ∧ m ≤ h) ∧
    (∀ m, xh = some m → ∃ h, g.height_m = some h ∧ h ≤ m) ∧
    (∀ m, md = some m → ∃ d, g.dbh_cm = some d ∧ m ≤ d) ∧
    (∀ m, xd = some m → ∃ d, g.dbh_cm = some d ∧ d ≤ m) := by
  simp only [SearchDrawer.filteredOf] at hg
  have hp := (List.mem_filter.mp hg).2
  obtain ⟨h1, hp⟩ := ifChainPeel hp
  obtain ⟨h2, hp⟩ := ifChainPeel hp
  obtain ⟨h3, hp⟩ := ifChainPeel hp
  obtain ⟨h4, hp⟩ := ifChainPeel hp
  refine ⟨?_, ?_, ?_, ?_⟩
  · intro m hm
    rw [hm] at h1
    cases hh : g.height_m with
    | none => rw [hh] at h1; simp at h1
    | some h => rw [hh] at h1; simp at h1; exact ⟨h, rfl, h1⟩
  · intro m hm
    rw [hm] at h2
    cases hh : g.height_m with
    | none => rw [hh] at h2; simp at h2
    | some h => rw [hh] at h2; simp at h2; exact ⟨h, rfl, h2⟩
  · intro m hm
    rw [hm] at h3
    cases hh : g.dbh_cm with
    | none => rw [hh] at h3; simp at h3
    | some d => rw [hh] at h3; simp at h3; exact ⟨d, rfl, h3⟩
  · intro m hm
    rw [hm] at h4
    cases hh : g.dbh_cm with
    | none => rw [hh] at h4; simp at h4
    | some d => rw [hh] at h4; simp at h4; exact ⟨d, rfl, h4⟩

theorem utils_absence_skips_bounds (items : List TreePoint) (uf : SearchFilters)
    (p : TreePoint) (hsp : uf.species = none) (hh : p.height = none)
    (hd : p.dbh = none) (hmem : p ∈ items) :
    p ∈ Utils.applyFilters items uf := by
  simp only [Utils.applyFilters]
  refine List.mem_filter.mpr ⟨hmem, ?_⟩
  simp [hsp, hh, hd]

/-- C4 counterexample: in `utils/filters.ts`, a record with **no** height
passes a filter whose `heightMin` is 5 — absence is treated as in-range
there, so "a record missing the field fails every bound-check on that
field" is false for that evaluator. -/
theorem utils_absence_passes_counterexample :
    ({ id := 0, lat := 0, lng := 0 } : TreePoint).height = none ∧
    Utils.applyFilters [{ id := 0, lat := 0, lng := 0 }] { heightMin := some 5 } =
      [{ id := 0, lat := 0, lng := 0 }] := by
  exact ⟨rfl, by decide⟩

/-- C4 amended — For the `MapView`/`SearchDrawer` evaluators the claim
holds: a record (resp. feature) surviving the filter satisfies every
present bound with a **present** field value, so a record missing the field
fails any bound-check on it.  The `utils/filters.ts` evaluator instead
skips a bound clause whenever the record's field is absent, so absence
passes there (third conjunct, for a filter with no species constraint). -/
theorem boundFilters_presence_semantics :
    (∀ (trees : List TreePoint) (f : Filters) (t : TreePoint),
      t ∈ MapView.applyFilters trees f →
      (∀ m, f.minHeight = some m → ∃ h, t.height = some h ∧ m ≤ h) ∧
      (∀ m, f.maxHeight = some m → ∃ h, t.height = some h ∧ h ≤ m) ∧
      (∀ m, f.minDbh = some m → ∃ d, t.dbh = some d ∧ m ≤ d) ∧
      (∀ m, f.maxDbh = some m → ∃ d, t.dbh = some d ∧ d ≤ m)) ∧
    (∀ (features : List MapView.Feature) (mh xh md xd : Option ℚ)
        (sp : List String) (g : MapView.Feature),
      g ∈ SearchDrawer.filteredOf features mh xh md xd sp →
      (∀ m, mh = some m → ∃ h, g.height_m = some h ∧ m ≤ h) ∧
      (∀ m, xh = some m → ∃ h, g.height_m = some h ∧ h ≤ m) ∧
      (∀ m, md = some m → ∃ d, g.dbh_cm = some d ∧ m ≤ d) ∧
      (∀ m, xd = some m → ∃ d, g.dbh_cm = some d ∧ d ≤ m)) ∧
    (∀ (items : List TreePoint) (uf : SearchFilters) (p : TreePoint),
      uf.species = none → p.height = none → p.dbh = none → p ∈ items →
      p ∈ Utils.applyFilters items uf) :=
  ⟨mapView_mem_bounds, searchDrawer_mem_bounds, utils_absence_skips_bounds⟩

/-- C4 witness: the amended theorem applied to a concrete record of height
7 surviving a `minHeight = 3` filter, and to a concrete fieldless record
passing the utils evaluator under a `heightMin = 5` filter. -/
theorem boundFilters_presence_witness :
    (∃ h, ({ id := 0, lat := 0, lng := 0, height := some 7 } : TreePoint).height = some h ∧
      (3 : ℚ) ≤ h) ∧
    ({ id := 0, lat := 0, lng := 0 } : TreePoint) ∈
      Utils.applyFilters [{ id := 0, lat := 0, lng := 0 }] { heightMin := some 5 } :=
  ⟨(boundFilters_presence_semantics.1 [{ id := 0, lat := 0, lng := 0, height := some 7 }]
      { minHeight := some 3 } { id := 0, lat := 0, lng := 0, height := some 7 }
      (by decide)).1 3 rfl,
    boundFilters_presence_semantics.2.2 [{ id := 0, lat := 0, lng := 0 }]
      { heightMin := some 5 } { id := 0, lat := 0, lng := 0 } rfl rfl rfl (by decide)⟩

/-- C9 counterexample: in `utils/filters.ts` an inverted height range
(min 10 > max 5) does **not** yield zero matches — a record with no height
field still comes through. -/
theorem utils_inverted_range_counterexample :
    (5 : ℚ) < 10 ∧
    Utils.applyFilters [{ id := 0, lat := 0, lng := 0 }]
        { heightMin := some 10, heightMax := some 5 } =
      [{ id := 0, lat := 0, lng := 0 }] := by
  constructor
  · norm_num
  · decide

/-- C9 amended — For the `MapView` evaluator the claim holds: an inverted
height (resp. diameter) range rejects every record, yielding zero matches
without raising an error (the evaluator is a total function).  The
`utils/filters.ts` evaluator instead lets records missing the inverted
dimension through. -/
theorem inverted_range_zero_matches (trees : List TreePoint) (f : Filters) (m x : ℚ) :
    (f.minHeight = some m → f.maxHeight = some x → x < m →
      MapView.applyFilters trees f = []) ∧
    (f.minDbh = some m → f.maxDbh = some x → x < m →
      MapView.applyFilters trees f = []) := by
  constructor
  · intro hm hx hxm
    simp only [MapView.applyFilters]
    apply List.filter_eq_nil_iff.mpr
    intro t _
    intro hpred
    obtain ⟨h1, hp⟩ := ifChainPeel hpred
    obtain ⟨h2, hp⟩ := ifChainPeel hp
    rw [hm] at h1
    rw [hx] at h2
    cases hh : t.height with
    | none => rw [hh] at h1; simp at h1
    | some h =>
      rw [hh] at h1
      rw [hh] at h2
      simp at h1 h2
      linarith
  · intro hm hx hxm
    simp only [MapView.applyFilters]
    apply List.filter_eq_nil_iff.mpr
    intro t _
    intro hpred
    obtain ⟨h1, hp⟩ := ifChainPeel hpred
    obtain ⟨h2, hp⟩ := ifChainPeel hp
    obtain ⟨h3, hp⟩ := ifChainPeel hp
    obtain ⟨h4, hp⟩ := ifChainPeel hp
    rw [hm] at h3
    rw [hx] at h4
    cases hh : t.dbh with
    | none => rw [hh] at h3; simp at h3
    | some d =>
      rw [hh] at h3
      rw [hh] at h4
      simp at h3 h4
      linarith

/-- C9 witness: the amended theorem applied to a concrete record set and
the inverted range `minHeight = 10 > 5 = maxHeight`. -/
theorem inverted_range_witness :
    MapView.applyFilters [{ id := 0, lat := 0, lng := 0, height := some 7 }]
      { minHeight := some 10, maxHeight := some 5 } = [] :=
  (inverted_range_zero_matches [{ id := 0, lat := 0, lng := 0, height := some 7 }]
    { minHeight := some 10, maxHeight := some 5 } 10 5).1 rfl rfl (by norm_num)

/-! ### Draw-area statistics (C2) -/

theorem num_heights :
    MapView.num [some 10, none, some 20] = [10, 0, 20] := by
  decide

theorem avg_of_ten_zero_twenty : MapView.avg [10, 0, 20] = some 10 := by
  rw [MapView.avg]
  rw [if_pos (by norm_num)]
  have h1 : (([10, 0, 20] : List ℚ).sum / (([10, 0, 20] : List ℚ).length : ℚ)
      + MapView.EPSILON) * 10 = 100 + 10 / 4503599627370496 := by
    simp [MapView.EPSILON]
    norm_num
  rw [h1]
  have h2 : MapView.jsRound (100 + 10 / 4503599627370496) = 100 := by
    rw [MapView.jsRound]
    rw [Int.floor_eq_iff]
    norm_num
  rw [h2]
  norm_num

/-- C2 — the draw-aggregation of `onCreated` feeds property values through
`xs.map(Number).filter(Number.isFinite)`; since `Number(null) = 0` is
finite, a record whose height is `null` contributes **as a zero**: for
contained heights `[10, null, 20]` the reported average is 10, not the 15
the specification requires ("a null value never contributes as zero"). -/
theorem areaStats_null_height_counts_as_zero :
    featHNull.height_m = none ∧
    (MapView.computeAreaStats (.rect (-5) (-5) 5 5) [featH10, featHNull, featH20]).count = 3 ∧
    (MapView.computeAreaStats (.rect (-5) (-5) 5 5) [featH10, featHNull, featH20]).avgHeight
      = some 10 ∧
    some (10 : ℚ) ≠ some 15 := by
  have hpick : ([featH10, featHNull, featH20].filter fun f =>
      MapView.insideShape (.rect (-5) (-5) 5 5) f.lat f.lng) = [featH10, featHNull, featH20] := by
    decide
  refine ⟨rfl, ?_, ?_, by norm_num⟩
  · simp [MapView.computeAreaStats, hpick]
  · simp only [MapView.computeAreaStats, hpick]
    have hmap : ([featH10, featHNull, featH20].map fun f => f.height_m)
        = [some 10, none, some 20] := by decide
    rw [hmap, num_heights, avg_of_ten_zero_twenty]

/-! ### CSV escaping (C7) -/

theorem dq_cons (c : Char) (t : List Char) :
    SearchDrawer.dq (c :: t) =
      (if c = '"' then ['"', '"'] else [c]) ++ SearchDrawer.dq t := by
  simp [SearchDrawer.dq]

theorem dq_ne_nil (d : Char) (u : List Char) : SearchDrawer.dq (d :: u) ≠ [] := by
  by_cases hd : d = '"' <;> simp [dq_cons, hd]

theorem undouble_dq (s : List Char) : SearchDrawer.undouble (SearchDrawer.dq s) = s := by
  induction s with
  | nil => rfl
  | cons c t ih =>
    by_cases hc : c = '"'
    · subst hc
      rw [dq_cons, if_pos rfl]
      show SearchDrawer.undouble ('"' :: '"' :: SearchDrawer.dq t) = _
      rw [show SearchDrawer.undouble ('"' :: '"' :: SearchDrawer.dq t)
          = '"' :: SearchDrawer.undouble (SearchDrawer.dq t) by
        simp [SearchDrawer.undouble]]
      rw [ih]
    · rw [dq_cons, if_neg hc]
      show SearchDrawer.undouble (c :: SearchDrawer.dq t) = _
      cases hdq2 : SearchDrawer.dq t with
      | nil =>
        have ht : t = [] := by
          cases t with
          | nil => rfl
          | cons d u => exact absurd hdq2 (dq_ne_nil d u)
        subst ht
        rfl
      | cons d u =>
        have hstep : SearchDrawer.undouble (c :: d :: u) = c :: SearchDrawer.undouble (d :: u) := by
          simp [SearchDrawer.undouble, hc]
        rw [hstep, ← hdq2, ih]

theorem special_mem (s : List Char) :
    s.any SearchDrawer.specialChar = true ↔ (',' ∈ s ∨ '"' ∈ s ∨ '\n' ∈ s) := by
  rw [List.any_eq_true]
  constructor
  · rintro ⟨c, hc, hsp⟩
    simp [SearchDrawer.specialChar] at hsp
    rcases hsp with (rfl | rfl) | rfl
    · exact Or.inl hc
    · exact Or.inr (Or.inl hc)
    · exact Or.inr (Or.inr hc)
  · rintro (h | h | h)
    · exact ⟨',', h, by simp [SearchDrawer.specialChar]⟩
    · exact ⟨'"', h, by simp [SearchDrawer.specialChar]⟩
    · exact ⟨'\n', h, by simp [SearchDrawer.specialChar]⟩

theorem readField_esc (s : List Char) :
    SearchDrawer.readField (SearchDrawer.esc (.vstr s)) = s := by
  rw [SearchDrawer.esc]
  by_cases hs : s.any SearchDrawer.specialChar
  · rw [if_pos hs]
    show SearchDrawer.readField ('"' :: (SearchDrawer.dq s ++ ['"'])) = s
    rw [SearchDrawer.readField]
    rw [if_pos rfl, List.dropLast_concat, undouble_dq]
  · rw [if_neg hs]
    cases s with
    | nil => rfl
    | cons c t =>
      have hc : c ≠ '"' := by
        intro h
        exact hs ((special_mem (c :: t)).mpr (Or.inr (Or.inl (h ▸ List.mem_cons_self c t))))
      rw [SearchDrawer.readField, if_neg hc]

/-- C7 — Field escaping of the CSV serializer: `null`/`undefined` render as
an empty field; the reference RFC-4180 field reader recovers the original
string from every escaped field (so internal double-quotes are doubled
faithfully); a field is wrapped in double quotes exactly when it contains a
comma, a double-quote or a newline; and `toCSV` emits a header row plus one
row of `esc`-escaped cells per record, joined with CRLF. -/
theorem toCSV_field_escaping :
    (SearchDrawer.esc .vnull = [] ∧ SearchDrawer.esc .vundefined = []) ∧
    (∀ v, SearchDrawer.readField (SearchDrawer.esc v) = SearchDrawer.jsValString v) ∧
    (∀ s, (SearchDrawer.esc (.vstr s)).head? = some '"' ↔
      (',' ∈ s ∨ '"' ∈ s ∨ '\n' ∈ s)) ∧
    (∀ (rows : List (List (String × SearchDrawer.CellVal))) (headers : List String),
      rows ≠ [] →
      SearchDrawer.toCSV rows headers =
        List.intercalate ['\r', '\n']
          ((List.intercalate [','] (headers.map String.toList)) ::
            rows.map fun r => List.intercalate [','] (headers.map fun h =>
              SearchDrawer.esc (SearchDrawer.getCell r h)))) := by
  refine ⟨⟨rfl, rfl⟩, ?_, ?_, ?_⟩
  · intro v
    cases v with
    | vstr s => exact readField_esc s
    | vnull => rfl
    | vundefined => rfl
  · intro s
    rw [SearchDrawer.esc]
    by_cases hs : s.any SearchDrawer.specialChar
    · rw [if_pos hs]
      simpa using (special_mem s).mp hs
    · rw [if_neg hs]
      have hR : ¬ (',' ∈ s ∨ '"' ∈ s ∨ '\n' ∈ s) := fun h => hs ((special_mem s).mpr h)
      constructor
      · intro h
        exfalso
        cases s with
        | nil => simp at h
        | cons c t =>
          simp at h
          exact hR (Or.inr (Or.inl (h ▸ List.mem_cons_self c t)))
      · intro h
        exact absurd h hR
  · intro rows headers hrows
    rw [SearchDrawer.toCSV, if_neg (by simpa using hrows)]

/-- C7 witness: the theorem applied to the species name `"Pine, Red"` (which
contains a comma) and to a concrete one-record, one-column table. -/
theorem toCSV_field_escaping_witness :
    SearchDrawer.readField (SearchDrawer.esc (.vstr ("Pine, Red".toList)))
      = "Pine, Red".toList ∧
    SearchDrawer.toCSV [[("species", SearchDrawer.CellVal.vstr ("Pine, Red".toList))]]
        ["species"] =
      List.intercalate ['\r', '\n']
        ((List.intercalate [','] (["species"].map String.toList)) ::
          [[("species", SearchDrawer.CellVal.vstr ("Pine, Red".toList))]].map fun r =>
            List.intercalate [','] (["species"].map fun h =>
              SearchDrawer.esc (SearchDrawer.getCell r h))) :=
  ⟨toCSV_field_escaping.2.1 (.vstr ("Pine, Red".toList)),
    toCSV_field_escaping.2.2.2 [[("species", SearchDrawer.CellVal.vstr ("Pine, Red".toList))]]
      ["species"] (by simp)⟩

/-! ### Ray casting (C8, C10) -/

theorem edgeCross_horizontal (x y xi xj yi yj : ℚ) (h : yi = yj) :
    MapView.edgeCross x y xi yi xj yj = false := by
  rw [MapView.edgeCross]
  subst h
  simp

theorem edgeDenom_ne_zero (yi yj : ℚ) : MapView.edgeDenom yi yj ≠ 0 := by
  rw [MapView.edgeDenom]
  split
  · norm_num
  · next h => exact h

theorem edgeCross_swap (x y xa ya xb yb : ℚ) :
    MapView.edgeCross x y xa ya xb yb = MapView.edgeCross x y xb yb xa ya := by
  by_cases hy : ya = yb
  · rw [edgeCross_horizontal x y xa xb ya yb hy, edgeCross_horizontal x y xb xa yb ya hy.symm]
  · have hne : yb - ya ≠ 0 := fun h => hy (by linarith)
    have hne2 : ya - yb ≠ 0 := fun h => hy (by linarith)
    have h1 : MapView.edgeDenom ya yb = yb - ya := by
      rw [MapView.edgeDenom, if_neg hne]
    have h2 : MapView.edgeDenom yb ya = ya - yb := by
      rw [MapView.edgeDenom, if_neg hne2]
    rw [MapView.edgeCross, MapView.edgeCross, h1, h2]
    have hxeq : (xb - xa) * (y - ya) / (yb - ya) + xa
        = (xa - xb) * (y - yb) / (ya - yb) + xb := by
      field_simp
      ring
    rw [hxeq]
    congr 1
    cases hb1 : decide (ya > y) <;> cases hb2 : decide (yb > y) <;> rfl

theorem foldl_const {α : Type} (l : List α) (g : Bool → α → Bool) (b : Bool)
    (h : ∀ acc, ∀ i ∈ l, g acc i = acc) : l.foldl g b = b := by
  induction l generalizing b with
  | nil => rfl
  | cons a t ih =>
    rw [List.foldl_cons, h b a (List.mem_cons_self a t)]
    exact ih b fun acc i hi => h acc i (List.mem_cons_of_mem a hi)

/-- C8 — The horizontal-edge guard of the ray-casting test: the substituted
denominator is `1e-12` exactly when the latitude difference is zero, the
denominator used is never zero (so the crossing computation never divides
by zero), a latitude-horizontal edge never toggles the parity, and a ring
whose vertices all share one latitude yields `false` (no parity flip from
degenerate edges). -/
theorem pointInPolygon_horizontal_guard :
    (∀ yi yj : ℚ, MapView.edgeDenom yi yj ≠ 0) ∧
    (∀ yi yj : ℚ, yj - yi = 0 → MapView.edgeDenom yi yj = 1 / 1000000000000) ∧
    (∀ x y xi xj yi yj : ℚ, yi = yj → MapView.edgeCross x y xi yi xj yj = false) ∧
    (∀ (p : ℚ × ℚ) (ring : List (ℚ × ℚ)) (c : ℚ), (∀ v ∈ ring, v.1 = c) →
      MapView.pointInPolygon p ring = false) := by
  refine ⟨edgeDenom_ne_zero, ?_, fun x y xi xj yi yj h => edgeCross_horizontal x y xi xj yi yj h, ?_⟩
  · intro yi yj h
    rw [MapView.edgeDenom, if_pos h]
  · intro p ring c hc
    rw [MapView.pointInPolygon]
    apply foldl_const
    intro acc i hi
    have hilt : i < ring.length := List.mem_range.mp hi
    have hjlt : (i + ring.length - 1) % ring.length < ring.length :=
      Nat.mod_lt _ (by omega)
    have hvi : ring.getD i (0, 0) = ring.get ⟨i, hilt⟩ := by
      rw [List.getD_eq_getElem ring (0, 0) hilt]
      rfl
    have hvj : ring.getD ((i + ring.length - 1) % ring.length) (0, 0)
        = ring.get ⟨(i + ring.length - 1) % ring.length, hjlt⟩ := by
      rw [List.getD_eq_getElem ring (0, 0) hjlt]
      rfl
    have hlat_i : (ring.get ⟨i, hilt⟩).1 = c := hc _ (List.get_mem ring _ _)
    have hlat_j : (ring.get ⟨(i + ring.length - 1) % ring.length, hjlt⟩).1 = c :=
      hc _ (List.get_mem ring _ _)
    show (if MapView.edgeCross p.2 p.1 (ring.getD i (0, 0)).2 (ring.getD i (0, 0)).1
        (ring.getD ((i + ring.length - 1) % ring.length) (0, 0)).2
        (ring.getD ((i + ring.length - 1) % ring.length) (0, 0)).1 = true
      then !acc else acc) = acc
    rw [hvi, hvj, edgeCross_horizontal _ _ _ _ _ _ (by rw [hlat_i, hlat_j])]
    rfl

/-- C8 witness: the theorem applied to a horizontal edge at latitude 5 and
to a degenerate all-horizontal ring at latitude 2. -/
theorem pointInPolygon_horizontal_witness :
    MapView.edgeDenom 3 3 = 1 / 1000000000000 ∧
    MapView.edgeCross 0 0 0 5 1 5 = false ∧
    MapView.pointInPolygon (0, 0) [(2, 0), (2, 1), (2, 5)] = false :=
  ⟨pointInPolygon_horizontal_guard.2.1 3 3 (by norm_num),
    pointInPolygon_horizontal_guard.2.2.1 0 0 0 1 5 5 rfl,
    pointInPolygon_horizontal_guard.2.2.2 (0, 0) [(2, 0), (2, 1), (2, 5)] 2 (by decide)⟩

/-- C10 — A ring with fewer than three vertices never reports containment:
the empty ring runs no edge test, a singleton ring tests only the
degenerate self-edge (horizontal by construction, hence no toggle), and a
two-vertex ring tests the same segment twice — the two wrap-around edges
produce identical crossing verdicts, so the parity flag is toggled an even
number of times and ends `false`.  The function is total (never throws). -/
theorem pointInPolygon_short_ring (p : ℚ × ℚ) (vs : List (ℚ × ℚ))
    (h : vs.length < 3) : MapView.pointInPolygon p vs = false := by
  rcases vs with _ | ⟨a, _ | ⟨b, _ | ⟨c, rest⟩⟩⟩
  · rfl
  · show MapView.pointInPolygon p [a] = false
    have h1 : MapView.edgeCross p.2 p.1 a.2 a.1 a.2 a.1 = false :=
      edgeCross_horizontal p.2 p.1 a.2 a.2 a.1 a.1 rfl
    show (if MapView.edgeCross p.2 p.1 a.2 a.1 a.2 a.1 = true then !false else false) = false
    rw [h1]
    rfl
  · show MapView.pointInPolygon p [a, b] = false
    have hswap := edgeCross_swap p.2 p.1 a.2 a.1 b.2 b.1
    show (let acc1 :=
        (if MapView.edgeCross p.2 p.1 ([a, b].getD 0 (0, 0)).2 ([a, b].getD 0 (0, 0)).1
            ([a, b].getD ((0 + 2 - 1) % 2) (0, 0)).2
            ([a, b].getD ((0 + 2 - 1) % 2) (0, 0)).1 = true
          then !false else false);
      (if MapView.edgeCross p.2 p.1 ([a, b].getD 1 (0, 0)).2 ([a, b].getD 1 (0, 0)).1
          ([a, b].getD ((1 + 2 - 1) % 2) (0, 0)).2
          ([a, b].getD ((1 + 2 - 1) % 2) (0, 0)).1 = true
        then !acc1 else acc1)) = false
    show (let acc1 :=
        (if MapView.edgeCross p.2 p.1 a.2 a.1 b.2 b.1 = true then !false else false);
      (if MapView.edgeCross p.2 p.1 b.2 b.1 a.2 a.1 = true then !acc1 else acc1)) = false
    rw [← hswap]
    cases hE : MapView.edgeCross p.2 p.1 a.2 a.1 b.2 b.1 <;> simp [hE]
  · exfalso
    simp at h
    omega

/-- C10 witness: the theorem applied to the origin and a two-vertex ring. -/
theorem pointInPolygon_short_ring_witness :
    MapView.pointInPolygon (5, 5) [(0, 0), (10, 10)] = false :=
  pointInPolygon_short_ring (5, 5) [(0, 0), (10, 10)] (by decide)

/-! ### Submission outbox (C1, C6) -/

theorem sendOnce_unauth (env : Outbox.Env) (st : Outbox.St) (data : Outbox.Payload)
    (hu : env.currentUser = none) :
    Outbox.sendOnce env st data = (.error .unauth, st) := by
  simp [Outbox.sendOnce, hu]

theorem retryAux_unauth (env : Outbox.Env) (data : Outbox.Payload)
    (hu : env.currentUser = none) :
    ∀ n st, Outbox.retryAux env data (n + 1) st = (.error .unauth, st) := by
  intro n
  induction n with
  | zero =>
    intro st
    exact sendOnce_unauth env st data hu
  | succ m ih =>
    intro st
    show Outbox.retryAux env data (m + 2) st = _
    rw [Outbox.retryAux, sendOnce_unauth env st data hu]
    exact ih st

theorem isApiAvailable_outbox (env : Outbox.Env) (st : Outbox.St) :
    (Outbox.isApiAvailable env st).2.outbox = st.outbox := by
  unfold Outbox.isApiAvailable
  repeat' split
  all_goals simp

theorem isApiAvailable_nextKey (env : Outbox.Env) (st : Outbox.St) :
    (Outbox.isApiAvailable env st).2.nextKey = st.nextKey := by
  unfold Outbox.isApiAvailable
  repeat' split
  all_goals simp

theorem sendOnce_outbox (env : Outbox.Env) (st : Outbox.St) (data : Outbox.Payload) :
    (Outbox.sendOnce env st data).2.outbox = st.outbox ∧
    (Outbox.sendOnce env st data).2.nextKey = st.nextKey := by
  unfold Outbox.sendOnce Outbox.sendViaApi Outbox.sendViaFirestore
  repeat' split
  all_goals simp only [isApiAvailable_outbox, isApiAvailable_nextKey]
  all_goals repeat' split
  all_goals simp [isApiAvailable_outbox, isApiAvailable_nextKey]

theorem retryAux_outbox (env : Outbox.Env) (data : Outbox.Payload) :
    ∀ (n : ℕ) (st : Outbox.St),
      (Outbox.retryAux env data n st).2.outbox = st.outbox ∧
      (Outbox.retryAux env data n st).2.nextKey = st.nextKey := by
  intro n
  induction n with
  | zero => intro st; exact ⟨rfl, rfl⟩
  | succ m ih =>
    intro st
    match m with
    | 0 => exact sendOnce_outbox env st data
    | k + 1 =>
      show (Outbox.retryAux env data (k + 2) st).2.outbox = st.outbox ∧
        (Outbox.retryAux env data (k + 2) st).2.nextKey = st.nextKey
      rcases hso : Outbox.sendOnce env st data with ⟨r, st1⟩
      have hpres := sendOnce_outbox env st data
      rw [hso] at hpres
      cases r with
      | ok v =>
        rw [Outbox.retryAux, hso]
        exact hpres
      | error e =>
        rw [Outbox.retryAux, hso]
        have hrec := ih st1
        exact ⟨hrec.1.trans hpres.1, hrec.2.trans hpres.2⟩

theorem retryableSend_outbox (env : Outbox.Env) (st : Outbox.St) (data : Outbox.Payload) :
    (Outbox.retryableSend env st data).2.outbox = st.outbox ∧
    (Outbox.retryableSend env st data).2.nextKey = st.nextKey :=
  retryAux_outbox env data 5 st

/-- C1 counterexample: online, with a healthy server but **no authenticated
user**, `submitReport` does not surface a hard error — the `UNAUTHENTICATED`
throw is swallowed by the bare `catch`, the payload is enqueued into the
durable outbox, and the caller sees `"queued"`. -/
theorem submitReport_unauth_counterexample :
    (Outbox.submitReport envUnauthOnline st0 7).1 = Outbox.SubmitResult.queued ∧
    (Outbox.submitReport envUnauthOnline st0 7).2.outbox = [(0, 7)] := by
  constructor <;> rfl

/-- C1 amended — When the current user is absent, `sendOnce` does throw a
hard `UNAUTHENTICATED` error, but `submitReport`'s bare `catch` treats it
like a connectivity failure: while online the payload **is** enqueued into
the durable outbox and the caller receives `"queued"` (never an error). -/
theorem submitReport_unauth_queues (env : Outbox.Env) (st : Outbox.St)
    (data : Outbox.Payload) (hu : env.currentUser = none) (ho : env.onLine = true) :
    (Outbox.sendOnce env st data).1 = .error .unauth ∧
    (Outbox.submitReport env st data).1 = .queued ∧
    (Outbox.submitReport env st data).2.outbox = st.outbox ++ [(st.nextKey, data)] := by
  have hra : Outbox.retryableSend env st data = (.error .unauth, st) :=
    retryAux_unauth env data hu 4 st
  refine ⟨by rw [sendOnce_unauth env st data hu], ?_, ?_⟩ <;>
    simp [Outbox.submitReport, ho, hra, Outbox.enqueue]

/-- C1 witness: the amended theorem applied to the concrete
unauthenticated-online environment and the empty initial state. -/
theorem submitReport_unauth_queues_witness :
    (Outbox.sendOnce envUnauthOnline st0 42).1 = .error .unauth ∧
    (Outbox.submitReport envUnauthOnline st0 42).1 = .queued ∧
    (Outbox.submitReport envUnauthOnline st0 42).2.outbox
      = st0.outbox ++ [(st0.nextKey, 42)] :=
  submitReport_unauth_queues envUnauthOnline st0 42 rfl rfl

theorem flushAux_spec (env : Outbox.Env) :
    ∀ (l pre : List (ℕ × Outbox.Payload)) (st : Outbox.St),
      st.outbox = pre ++ l →
      ((pre ++ l).map Prod.fst).Nodup →
      ∃ kept, List.Sublist kept l ∧
        (Outbox.flushAux env l st).2.outbox = pre ++ kept ∧
        (Outbox.flushAux env l st).1 + kept.length = l.length := by
  intro l
  induction l with
  | nil =>
    intro pre st hout hnd
    exact ⟨[], List.nil_sublist [], by simpa [Outbox.flushAux] using hout,
      by simp [Outbox.flushAux]⟩
  | cons e rest ih =>
    intro pre st hout hnd
    obtain ⟨k, data⟩ := e
    rcases hrs : Outbox.retryableSend env st data with ⟨r, st1⟩
    have hpres : st1.outbox = st.outbox := by
      have h := retryableSend_outbox env st data
      rw [hrs] at h
      exact h.1
    have hknotpre : ∀ e2 ∈ pre, e2.1 ≠ k := by
      intro e2 he2 hek
      have hmap : (pre.map Prod.fst ++ ((k, data) :: rest).map Prod.fst).Nodup := by
        simpa using hnd
      have hdisj := (List.nodup_append.mp hmap).2.2
      exact hdisj (hek ▸ List.mem_map_of_mem Prod.fst he2) (by simp)
    have hknotrest : ∀ e2 ∈ rest, e2.1 ≠ k := by
      intro e2 he2 hek
      have hmap : (pre.map Prod.fst ++ (k :: rest.map Prod.fst)).Nodup := by
        simpa using hnd
      have hnr : (k :: rest.map Prod.fst).Nodup := (List.nodup_append.mp hmap).2.1
      have := (List.nodup_cons.mp hnr).1
      exact this (hek ▸ List.mem_map_of_mem Prod.fst he2)
    cases r with
    | error err =>
      have hstep : Outbox.flushAux env ((k, data) :: rest) st
          = Outbox.flushAux env rest st1 := by
        rw [Outbox.flushAux, hrs]
      have hout1 : st1.outbox = (pre ++ [(k, data)]) ++ rest := by
        rw [hpres, hout]
        simp
      have hnd1 : (((pre ++ [(k, data)]) ++ rest).map Prod.fst).Nodup := by
        simpa using hnd
      obtain ⟨kept, hsub, hob, hcnt⟩ := ih (pre ++ [(k, data)]) st1 hout1 hnd1
      refine ⟨(k, data) :: kept, List.Sublist.cons₂ (k, data) hsub, ?_, ?_⟩
      · rw [hstep, hob]
        simp
      · rw [hstep]
        simp only [List.length_cons]
        omega
    | ok v =>
      have hstep1 : (Outbox.flushAux env ((k, data) :: rest) st).1
          = (Outbox.flushAux env rest (Outbox.del st1 k)).1 + 1 := by
        rw [Outbox.flushAux, hrs]
      have hstep2 : (Outbox.flushAux env ((k, data) :: rest) st).2
          = (Outbox.flushAux env rest (Outbox.del st1 k)).2 := by
        rw [Outbox.flushAux, hrs]
      have hdel : (Outbox.del st1 k).outbox = pre ++ rest := by
        rw [Outbox.del]
        show (st1.outbox.filter fun e => decide (e.1 ≠ k)) = pre ++ rest
        rw [hpres, hout, List.filter_append]
        have h1 : (pre.filter fun e => decide (e.1 ≠ k)) = pre :=
          List.filter_eq_self.mpr fun e2 he2 => by
            simpa using hknotpre e2 he2
        have h2 : (((k, data) :: rest).filter fun e => decide (e.1 ≠ k))
            = rest := by
          rw [List.filter_cons]
          rw [if_neg (by simp)]
          exact List.filter_eq_self.mpr fun e2 he2 => by
            simpa using hknotrest e2 he2
        rw [h1, h2]
      have hnd2 : ((pre ++ rest).map Prod.fst).Nodup := by
        have hsubl : List.Sublist ((pre ++ rest).map Prod.fst)
            ((pre ++ (k, data) :: rest).map Prod.fst) := by
          apply List.Sublist.map
          exact List.Sublist.append_left (List.sublist_cons_self (k, data) rest) pre
        exact hnd.sublist hsubl
      obtain ⟨kept, hsub, hob, hcnt⟩ := ih pre (Outbox.del st1 k) hdel hnd2
      refine ⟨kept, List.Sublist.cons (k, data) hsub, ?_, ?_⟩
      · rw [hstep2, hob]
      · rw [hstep1]
        simp only [List.length_cons]
        omega

theorem flushAux_unauth (env : Outbox.Env) (hu : env.currentUser = none) :
    ∀ (l : List (ℕ × Outbox.Payload)) (st : Outbox.St),
      Outbox.flushAux env l st = (0, st) := by
  intro l
  induction l with
  | nil => intro st; rfl
  | cons e rest ih =>
    intro st
    obtain ⟨k, data⟩ := e
    have hra : Outbox.retryableSend env st data = (.error .unauth, st) :=
      retryAux_unauth env data hu 4 st
    rw [Outbox.flushAux, hra]
    exact ih st

theorem sendOnce_allok (env : Outbox.Env) (st : Outbox.St) (data : Outbox.Payload)
    (hu : env.currentUser.isSome) (ha : st.apiState = some true)
    (hp : ∀ n, env.post n = .ok ()) :
    Outbox.sendOnce env st data
      = (.ok (), { st with postCnt := st.postCnt + 1, apiState := some true }) := by
  rcases hcu : env.currentUser with _ | u
  · rw [hcu] at hu; simp at hu
  · simp [Outbox.sendOnce, hcu, Outbox.isApiAvailable, ha, Outbox.sendViaApi, hp]

theorem retryableSend_allok (env : Outbox.Env) (st : Outbox.St) (data : Outbox.Payload)
    (hu : env.currentUser.isSome) (ha : st.apiState = some true)
    (hp : ∀ n, env.post n = .ok ()) :
    Outbox.retryableSend env st data
      = (.ok (), { st with postCnt := st.postCnt + 1, apiState := some true }) := by
  show Outbox.retryAux env data 5 st = _
  rw [Outbox.retryAux, sendOnce_allok env st data hu ha hp]

theorem flushAux_allok (env : Outbox.Env) (hu : env.currentUser.isSome)
    (hp : ∀ n, env.post n = .ok ()) :
    ∀ (l : List (ℕ × Outbox.Payload)) (st : Outbox.St), st.apiState = some true →
      (Outbox.flushAux env l st).2.outbox
        = st.outbox.filter fun e => decide (e.1 ∉ l.map Prod.fst) := by
  intro l
  induction l with
  | nil =>
    intro st ha
    show st.outbox = _
    symm
    apply List.filter_eq_self.mpr
    intro e _
    simp
  | cons e0 rest ih =>
    intro st ha
    obtain ⟨k, data⟩ := e0
    rw [Outbox.flushAux, retryableSend_allok env st data hu ha hp]
    have hrec := ih (Outbox.del { st with postCnt := st.postCnt + 1, apiState := some true } k)
      (by rw [Outbox.del])
    rw [hrec]
    show ((st.outbox.filter fun e => decide (e.1 ≠ k)).filter
        fun e => decide (e.1 ∉ rest.map Prod.fst)) = _
    rw [List.filter_filter]
    apply List.filter_congr
    intro e _
    simp only [List.map_cons, List.mem_cons, not_or, Bool.and_comm]
    simp [and_comm]

/-- C6 — Outbox entries are removed only by a confirmed successful send:
over any oracle environment a flush pass only deletes entries (the
remaining store is a sublist of the original, and the deleted count is the
reported success count); if every send fails (e.g. no authenticated user)
the store — and the whole state — is untouched; if every send succeeds the
store drains completely.  Deletion happens entry by entry (`del` right
after the entry's `retryableSend` resolves, before the next entry is
tried), which the recursion of `flushAux` mirrors. -/
theorem flushOutbox_removal_semantics (env : Outbox.Env) (st : Outbox.St)
    (hnd : (st.outbox.map Prod.fst).Nodup) :
    List.Sublist (Outbox.flushOutbox env st).2.outbox st.outbox ∧
    (Outbox.flushOutbox env st).1 + (Outbox.flushOutbox env st).2.outbox.length
      = st.outbox.length ∧
    (env.currentUser = none → Outbox.flushOutbox env st = (0, st)) ∧
    (env.currentUser.isSome → st.apiState = some true → (∀ n, env.post n = .ok ()) →
      (Outbox.flushOutbox env st).2.outbox = []) := by
  obtain ⟨kept, hsub, hob, hcnt⟩ :=
    flushAux_spec env st.outbox [] st (by simp) (by simpa using hnd)
  refine ⟨?_, ?_, ?_, ?_⟩
  · show (Outbox.flushAux env st.outbox st).2.outbox.Sublist st.outbox
    rw [hob]
    simpa using hsub
  · show (Outbox.flushAux env st.outbox st).1
        + (Outbox.flushAux env st.outbox st).2.outbox.length = _
    rw [hob]
    simpa using hcnt
  · intro hu
    exact flushAux_unauth env hu st.outbox st
  · intro hu ha hp
    show (Outbox.flushAux env st.outbox st).2.outbox = []
    rw [flushAux_allok env hu hp st.outbox st ha]
    apply List.filter_eq_nil_iff.mpr
    intro e he
    simp [List.mem_map_of_mem Prod.fst he]

/-- C6 witness: the theorem applied to a two-entry store — untouched under
an unauthenticated environment, fully drained under an all-success
environment. -/
theorem flushOutbox_removal_witness :
    Outbox.flushOutbox envUnauthOnline
        { apiState := none, postCnt := 0, fsCnt := 0, outbox := [(0, 7), (1, 8)], nextKey := 2 }
      = (0, { apiState := none, postCnt := 0, fsCnt := 0,
              outbox := [(0, 7), (1, 8)], nextKey := 2 }) ∧
    (Outbox.flushOutbox envAllOk
        { apiState := some true, postCnt := 0, fsCnt := 0,
          outbox := [(0, 7), (1, 8)], nextKey := 2 }).2.outbox = [] :=
  ⟨(flushOutbox_removal_semantics envUnauthOnline
      { apiState := none, postCnt := 0, fsCnt := 0, outbox := [(0, 7), (1, 8)], nextKey := 2 }
      (by decide)).2.2.1 rfl,
    (flushOutbox_removal_semantics envAllOk
      { apiState := some true, postCnt := 0, fsCnt := 0,
        outbox := [(0, 7), (1, 8)], nextKey := 2 }
      (by decide)).2.2.2 rfl rfl (fun n => rfl)⟩
